import Mathlib

/-!
Verification of the GIVE engine (src/src/engine/GIVEEngine.js), a frame-accurate
video overlay compositor.  The JavaScript source is shallowly embedded: JS
numbers are modelled as exact rationals (ℚ), frame counters as integers (ℤ),
absent ("undefined") fields as `Option`, and the mutable `GIVEEngine` object as
an explicit `EngineState` record threaded through the operations.  Canvas 2D
calls are abstracted as `DrawCmd` values: a command records the data the source
passes to the canvas; purely visual attributes computed with transcendental
functions (the wall-clock QTE pulse `sin`, arrow-head `atan2` angles, canvas
rotation) are not recomputed in ℚ — the command carries the geometric inputs
instead.  `ctx.measureText` is modelled as an oracle `measure : String → ℚ`
supplied by the render context.  A renderer that would throw a `TypeError` in
JS (a property access on `undefined`, e.g. `overlay.content.split` with no
`content`) is modelled in `Except JsError`.  Geometry fields `x, y, width,
height` are modelled as always-present numbers (the data model declares them
as pixel-space numbers); `renderCaption`'s `overlay.x !== undefined` default
branch therefore always takes the stored coordinate in this model.
-/

namespace GIVE

/-- A 2D point, `{x, y}` in the source. -/
structure Point where
  x : ℚ
  y : ℚ
  deriving DecidableEq, Repr

/-- A bounding box `{x, y, width, height}` as used by tracked objects. -/
structure Bounds where
  x : ℚ
  y : ℚ
  width : ℚ
  height : ℚ
  deriving DecidableEq, Repr

/-- One tracking keyframe `{frame, bounds}` (GIVEEngine.js line 1306). -/
structure Keyframe where
  frame : ℤ
  bounds : Bounds
  deriving DecidableEq, Repr

/-- A tracked object `{id, startFrame, endFrame, keyframes}` (line 1302). -/
structure Track where
  id : String
  startFrame : ℤ
  endFrame : ℤ
  keyframes : List Keyframe
  deriving DecidableEq, Repr

/-- Decoded image handle; models the JS `Image` element cached on the overlay
(`complete`, `naturalWidth`, `naturalHeight` are the properties the source
reads in renderImage, lines 695-712). -/
structure Img where
  complete : Bool
  naturalWidth : ℚ
  naturalHeight : ℚ
  deriving DecidableEq, Repr

/-- Overlay transform `{rotate, scale}` (lines 344-349); the canvas matrix it
sets up is not replayed in ℚ, but the record is kept on the overlay. -/
structure Transform where
  rotate : Option ℚ := none
  scale : Option ℚ := none
  deriving DecidableEq, Repr

/-- The style options the engine reads.  Only fields the embedded renderers
consume are listed; colour/font strings that only select paint attributes are
kept where a renderer's control flow reads them (e.g. `strokeColor`). -/
structure Style where
  size : Option ℚ := none
  arrowHead : Option Bool := none
  animated : Option Bool := none
  animationFrames : Option ℚ := none
  charsPerFrame : Option ℚ := none
  typewriterDelay : Option ℚ := none
  typewriter : Option Bool := none
  showCursor : Option Bool := none
  showStaticCursor : Option Bool := none
  showBackground : Option Bool := none
  scanlines : Option Bool := none
  scanlineSpacing : Option ℚ := none
  strokeColor : Option String := none
  fillColor : Option String := none
  glowColor : Option String := none
  fontSize : Option ℚ := none
  padding : Option ℚ := none
  lineHeight : Option ℚ := none
  maxWidth : Option ℚ := none
  charWidth : Option ℚ := none
  deriving DecidableEq, Repr

/-- An overlay record (spec §3; fields as read by GIVEEngine.js).  Absent
optional fields are `none`; all fields default so that literals only name what
a test sets, like a JS object literal. -/
structure Overlay where
  id : String := ""
  type : String := ""
  frameStart : ℤ := 0
  frameEnd : ℤ := 0
  x : ℚ := 0
  y : ℚ := 0
  width : ℚ := 0
  height : ℚ := 0
  content : Option String := none
  key : Option String := none
  action : Option String := none
  shapeType : Option String := none
  points : Option (List Point) := none
  closed : Option Bool := none
  startPoint : Option Point := none
  endPoint : Option Point := none
  controlPoint : Option Point := none
  controlPoint1 : Option Point := none
  controlPoint2 : Option Point := none
  pointer : Option Point := none
  trackId : Option String := none
  trackOffset : Option Point := none
  trackSize : Bool := false
  src : Option String := none
  imageElement : Option Img := none
  interactive : Option Bool := none
  transform : Option Transform := none
  style : Style := {}
  deriving DecidableEq, Repr

/-- A collision/interaction area as registered by renderQTE (lines 604-613). -/
structure Area where
  id : String
  type : String
  x : ℚ
  y : ℚ
  width : ℚ
  height : ℚ
  key : Option String := none
  action : Option String := none
  deriving DecidableEq, Repr

/-- Models the JS idiom `v || d` on an optional number: `undefined` and `0`
are falsy, any other number is itself. -/
def qOrD (v : Option ℚ) (d : ℚ) : ℚ :=
  match v with
  | none => d
  | some q => if q = 0 then d else q

/-- Models `v || d` on an optional string: `undefined` and `""` are falsy. -/
def sOrD (v : Option String) (d : String) : String :=
  match v with
  | none => d
  | some s => if s = "" then d else s

/-- Models the JS string coercion of an optional value passed to a canvas text
call: `fillText(undefined, ...)` draws the string "undefined". -/
def optStr (v : Option String) : String := v.getD "undefined"

/-! ### Temporal mapper (GIVEEngine.js lines 206-217)

In the source these are methods reading `this.config.fps`; here the fps is an
explicit first argument. -/

/-- Convert time (seconds) to frame number: `Math.floor(time * fps)`. -/
def timeToFrame (fps : ℚ) (time : ℚ) : ℤ := ⌊time * fps⌋

/-- Convert frame number to time in seconds: `frame / fps`. -/
def frameToTime (fps : ℚ) (frame : ℤ) : ℚ := (frame : ℚ) / fps

/-! ### Geometry/curve evaluator (lines 995-1014) -/

/-- Point on a quadratic bezier, `(1-t)²P0 + 2(1-t)t·P1 + t²P2` (line 995). -/
def quadraticBezierPoint (start control «end» : Point) (t : ℚ) : Point :=
  { x := (1 - t) * (1 - t) * start.x + 2 * (1 - t) * t * control.x + t * t * «end».x
    y := (1 - t) * (1 - t) * start.y + 2 * (1 - t) * t * control.y + t * t * «end».y }

/-- Point on a cubic bezier (line 1004). -/
def bezierPoint (start cp1 cp2 «end» : Point) (t : ℚ) : Point :=
  { x := (1 - t) ^ 3 * start.x + 3 * (1 - t) ^ 2 * t * cp1.x +
         3 * (1 - t) * t ^ 2 * cp2.x + t ^ 3 * «end».x
    y := (1 - t) ^ 3 * start.y + 3 * (1 - t) ^ 2 * t * cp1.y +
         3 * (1 - t) * t ^ 2 * cp2.y + t ^ 3 * «end».y }

/-! ### Object tracker (lines 1297-1395) -/

/-- Lookup in the `trackedObjects` map, modelled as an id-keyed list. -/
def getTrack (tracks : List Track) (trackId : String) : Option Track :=
  tracks.find? (fun t => t.id == trackId)

/-- Linear interpolation of the four bounds fields (lines 1389-1394). -/
def lerpBounds (b1 b2 : Bounds) (t : ℚ) : Bounds :=
  { x := b1.x + (b2.x - b1.x) * t
    y := b1.y + (b2.y - b1.y) * t
    width := b1.width + (b2.width - b1.width) * t
    height := b1.height + (b2.height - b1.height) * t }

/-- The bracketing-keyframe search loop (lines 1378-1384): the first adjacent
pair whose frames enclose `frame`. -/
def findBracket (frame : ℤ) : List Keyframe → Option (Keyframe × Keyframe)
  | k1 :: k2 :: rest =>
    if k1.frame ≤ frame ∧ frame ≤ k2.frame then some (k1, k2)
    else findBracket frame (k2 :: rest)
  | _ => none

/-- Body of getTrackedBounds once a track with nonempty keyframes `k0 :: ks`
is in hand (lines 1357-1394).  When the search loop finds no bracketing pair
the source falls back to (first, last), modelled by `Option.getD`. -/
def boundsFromKeyframes (startFrame endFrame : ℤ) (k0 : Keyframe)
    (ks : List Keyframe) (frame : ℤ) : Option Bounds :=
  if frame < startFrame ∨ frame > endFrame then none
  else if frame ≤ k0.frame then some k0.bounds
  else
    let klast := ks.getLastD k0
    if frame ≥ klast.frame then some klast.bounds
    else
      let pr := (findBracket frame (k0 :: ks)).getD (k0, klast)
      let t : ℚ := ((frame - pr.1.frame : ℤ) : ℚ) / ((pr.2.frame - pr.1.frame : ℤ) : ℚ)
      some (lerpBounds pr.1.bounds pr.2.bounds t)

/-- Interpolated bounds of a tracked object at a frame (lines 1351-1395):
`null` for an unknown track, an empty keyframe list, or an out-of-range frame;
pre-hold before the first keyframe, post-hold after the last, linear
interpolation between the bracketing pair otherwise. -/
def getTrackedBounds (tracks : List Track) (trackId : String) (frame : ℤ) :
    Option Bounds :=
  match getTrack tracks trackId with
  | none => none
  | some track =>
    match track.keyframes with
    | [] => none
    | k0 :: ks => boundsFromKeyframes track.startFrame track.endFrame k0 ks frame

/-! ### Typewriter reveal (renderTerminalText, lines 736-752) -/

/-- Number of characters of a terminal_text overlay visible at a frame
(lines 742-750).  With the typewriter disabled all characters show; otherwise
`min(content.length, floor(max(0, framesElapsed - delay) * charsPerFrame))`. -/
def visibleCharsOf (style : Style) (content : String) (currentFrame frameStart : ℤ) : ℤ :=
  if style.typewriter = some false then (content.length : ℤ)
  else
    let framesElapsed : ℚ := ((currentFrame - frameStart : ℤ) : ℚ)
    let charsPerFrame := qOrD style.charsPerFrame (1 / 2)
    let typewriterDelay := qOrD style.typewriterDelay 0
    let typingFrames : ℚ := max 0 (framesElapsed - typewriterDelay)
    min (content.length : ℤ) ⌊typingFrames * charsPerFrame⌋

/-! ### Canvas abstraction -/

/-- A JavaScript runtime exception.  The engine has no try/catch: a renderer
that performs a property access on `undefined` raises a TypeError. -/
inductive JsError where
  | typeError (msg : String)
  deriving DecidableEq, Repr

/-- Abstracted canvas drawing commands.  Each constructor records the data the
source hands to the corresponding canvas 2D calls; paint attributes (colours,
fonts, dashes) and transcendental pixel math (QTE pulse `sin`, arrow-head
`atan2`, rotation) are not replayed — the command carries the inputs. -/
inductive DrawCmd where
  | fillText (text : String) (x y : ℚ)
  | strokeText (text : String) (x y : ℚ)
  | fillRect (x y w h : ℚ)
  | rectPath (x y w h : ℚ)
  | circleArc (cx cy r : ℚ)
  | polygonPath (points : List Point)
  | fillCmd
  | strokeCmd
  | outlinePath (points : List Point) (closed : Bool)
  | qteGlow (cx cy r : ℚ)
  | qteCircle (cx cy r : ℚ)
  | popupBubble (x y w h : ℚ) (pointer : Bool)
  | image (x y w h : ℚ)
  | termBg (x y w h : ℚ)
  | cursorRect (x y w h : ℚ)
  | termScanlines (x y w : ℚ)
  | linePath (points : List Point)
  | arrowHead (tip : Point)
  | applyTransform (cx cy : ℚ) (rotate scale : Option ℚ)
  | flickerPass
  | scanlinePass
  | vignettePass
  deriving DecidableEq, Repr

/-- Ambient render context: `measure` is the `ctx.measureText(...).width`
oracle, `nowMs` the wall clock `Date.now()` read by the blinking cursor and
QTE pulse. -/
structure Ctx where
  measure : String → ℚ
  nowMs : ℤ

/-- Truthiness of an optional JS string (`undefined` and `""` are falsy). -/
def sTruthy (v : Option String) : Bool :=
  match v with
  | none => false
  | some s => s != ""

/-! ### Type renderers (lines 397-1090) -/

/-- renderText (lines 400-423): optional stroke pass, then fill. -/
def renderText (o : Overlay) : List DrawCmd :=
  (if sTruthy o.style.strokeColor then [DrawCmd.strokeText (optStr o.content) o.x o.y] else []) ++
  [DrawCmd.fillText (optStr o.content) o.x o.y]

/-- renderCaption (lines 428-453): background sized to measured text plus
padding, then the text.  The `overlay.x !== undefined` centering default is
always the stored-coordinate branch here, geometry being modelled present. -/
def renderCaption (ctx : Ctx) (o : Overlay) : List DrawCmd :=
  let padding := qOrD o.style.padding 8
  let fontSize := qOrD o.style.fontSize 28
  let textWidth := ctx.measure (optStr o.content)
  let textHeight := fontSize * (6 / 5)
  [DrawCmd.fillRect o.x o.y (textWidth + padding * 2) (textHeight + padding * 2),
   DrawCmd.fillText (optStr o.content) (o.x + padding) (o.y + padding)]

/-- renderShape (lines 458-498): rect, circle or polygon path, then optional
fill and optional stroke. -/
def renderShape (o : Overlay) : List DrawCmd :=
  let path : List DrawCmd :=
    match o.shapeType with
    | some "rect" => [DrawCmd.rectPath o.x o.y o.width o.height]
    | some "circle" => [DrawCmd.circleArc (o.x + o.width / 2) (o.y + o.height / 2) (o.width / 2)]
    | some "polygon" =>
      match o.points with
      | some (p :: ps) => [DrawCmd.polygonPath (p :: ps)]
      | _ => []
    | _ => []
  path ++ (if sTruthy o.style.fillColor then [DrawCmd.fillCmd] else []) ++
    (if sTruthy o.style.strokeColor then [DrawCmd.strokeCmd] else [])

/-- renderAscii (lines 503-528): `overlay.content.split` is a property access
on the content — a missing content throws.  Each line advances by the
configured line height. -/
def renderAscii (o : Overlay) : Except JsError (List DrawCmd) :=
  match o.content with
  | none => .error (JsError.typeError "cannot read properties of undefined, reading split")
  | some content =>
    let fontSize := qOrD o.style.fontSize 12
    let lineHeight := qOrD o.style.lineHeight (fontSize * (6 / 5))
    let lines := content.splitOn "\n"
    .ok ((lines.enum.map (fun li =>
      let y := o.y + (li.1 : ℚ) * lineHeight
      (if sTruthy o.style.strokeColor then [DrawCmd.strokeText li.2 o.x y] else []) ++
      [DrawCmd.fillText li.2 o.x y])).flatten)

/-- renderOutline (lines 533-560): silently a no-op when points are missing or
fewer than 2; otherwise an open or closed polyline, optionally filled. -/
def renderOutline (o : Overlay) : List DrawCmd :=
  match o.points with
  | none => []
  | some pts =>
    if pts.length < 2 then []
    else
      [DrawCmd.outlinePath pts (o.closed ≠ some false), DrawCmd.strokeCmd] ++
      (if sTruthy o.style.fillColor then [DrawCmd.fillCmd] else [])

/-- The interaction area renderQTE registers (lines 604-613). -/
def qteArea (o : Overlay) : Area :=
  let size := qOrD o.style.size 60
  { id := o.id, type := "qte", x := o.x, y := o.y, width := size, height := size,
    key := o.key, action := o.action }

/-- renderQTE drawing commands (lines 565-600): glow ring, main circle, key
text (key falls back to "X").  The wall-clock pulse only scales the canvas. -/
def renderQTECmds (o : Overlay) : List DrawCmd :=
  let size := qOrD o.style.size 60
  [DrawCmd.qteGlow (o.x + size / 2) (o.y + size / 2) (size / 2 + 5),
   DrawCmd.qteCircle (o.x + size / 2) (o.y + size / 2) (size / 2),
   DrawCmd.fillText (sOrD o.key "X") (o.x + size / 2) (o.y + size / 2)]

/-- registerCollisionArea (lines 1177-1181): drop any area with the same id,
then push the new one. -/
def registerCollisionArea (areas : List Area) (a : Area) : List Area :=
  (areas.filter (fun b => b.id != a.id)) ++ [a]

/-- The greedy word-wrap of renderPopup (lines 630-644). -/
def popupLines (measure : String → ℚ) (maxWidth padding : ℚ) (content : String) :
    List String :=
  let words := content.splitOn " "
  let r := words.foldl (fun (acc : List String × String) word =>
    let testLine := if acc.2 = "" then word else acc.2 ++ " " ++ word
    if measure testLine > maxWidth - padding * 2 then (acc.1 ++ [acc.2], word)
    else (acc.1, testLine)) ([], "")
  r.1 ++ [r.2]

/-- renderPopup (lines 620-689): `overlay.content.split(' ')` throws when the
content is missing; otherwise a rounded bubble (with optional tail) and the
wrapped lines. -/
def renderPopup (ctx : Ctx) (o : Overlay) : Except JsError (List DrawCmd) :=
  match o.content with
  | none => .error (JsError.typeError "cannot read properties of undefined, reading split")
  | some content =>
    let padding := qOrD o.style.padding 12
    let fontSize := qOrD o.style.fontSize 16
    let maxWidth := qOrD o.style.maxWidth 250
    let lines := popupLines ctx.measure maxWidth padding content
    let lineHeight := fontSize * (13 / 10)
    let boxHeight := (lines.length : ℚ) * lineHeight + padding * 2
    .ok ([DrawCmd.popupBubble o.x o.y maxWidth boxHeight o.pointer.isSome] ++
      lines.enum.map (fun li =>
        DrawCmd.fillText li.2 (o.x + padding) (o.y + padding + (li.1 : ℚ) * lineHeight)))

/-- renderImage (lines 694-713): first reference caches a not-yet-complete
image handle on the overlay and draws nothing (the async onload re-render is
outside this synchronous model); an incomplete handle draws nothing; a
complete one draws at the stored size, falling back to the natural size. -/
def renderImage (o : Overlay) : Overlay × List DrawCmd :=
  match o.imageElement with
  | none =>
    ({ o with imageElement := some { complete := false, naturalWidth := 0, naturalHeight := 0 } }, [])
  | some img =>
    if !img.complete then (o, [])
    else
      (o, [DrawCmd.image o.x o.y (if o.width = 0 then img.naturalWidth else o.width)
            (if o.height = 0 then img.naturalHeight else o.height)])

/-- renderTerminalText (lines 719-861): background box measured on the full
content, typewriter-limited visible text, blinking or static cursor driven by
the wall clock, optional per-overlay scanlines (summarised as one command). -/
def renderTerminalText (ctx : Ctx) (o : Overlay) (currentFrame : ℤ) : List DrawCmd :=
  let style := o.style
  let fontSize := qOrD style.fontSize 16
  let lineHeight := qOrD style.lineHeight (fontSize * (7 / 5))
  let charWidth := qOrD style.charWidth (fontSize * (3 / 5))
  let padding := qOrD style.padding 8
  let content := o.content.getD ""
  let visibleChars := visibleCharsOf style content currentFrame o.frameStart
  let visibleText := content.take visibleChars.toNat
  let lines := visibleText.splitOn "\n"
  let allLines := content.splitOn "\n"
  let maxLineWidth := (allLines.map ctx.measure).foldl max 0
  let boxWidth := maxLineWidth + padding * 2
  let boxHeight := (allLines.length : ℚ) * lineHeight + padding * 2
  let bg := if style.showBackground ≠ some false
            then [DrawCmd.termBg o.x o.y boxWidth boxHeight] else []
  let textCmds := (lines.enum.map (fun li =>
      let lineY := o.y + padding + (li.1 : ℚ) * lineHeight
      (if sTruthy style.strokeColor then [DrawCmd.strokeText li.2 (o.x + padding) lineY] else []) ++
      [DrawCmd.fillText li.2 (o.x + padding) lineY])).flatten
  let cursorBlink := (Int.fdiv ctx.nowMs 500) % 2 = 0
  let lastLine := lines.getLastD ""
  let cursorX := o.x + padding + ctx.measure lastLine + 2
  let cursorY := o.y + padding + (((lines.length : ℤ) - 1 : ℤ) : ℚ) * lineHeight
  let blinkCursor :=
    if style.typewriter ≠ some false ∧ visibleChars < (content.length : ℤ) ∧
       style.showCursor ≠ some false ∧ cursorBlink
    then [DrawCmd.cursorRect cursorX cursorY (charWidth * (3 / 5)) (fontSize * (11 / 10))] else []
  let staticCursor :=
    if style.showStaticCursor = some true ∧ (content.length : ℤ) ≤ visibleChars ∧ cursorBlink
    then [DrawCmd.cursorRect cursorX cursorY (charWidth * (3 / 5)) (fontSize * (11 / 10))] else []
  let scan := if style.scanlines = some true then [DrawCmd.termScanlines o.x o.y boxWidth] else []
  bg ++ textCmds ++ blinkCursor ++ staticCursor ++ scan

/-- Sample points of drawPartialQuadraticBezier (lines 971-978). -/
def samplePartialQuad (start control «end» : Point) (t : ℚ) : List Point :=
  let steps := (Int.ceil (t * 20)).toNat
  (List.range steps).map (fun i =>
    quadraticBezierPoint start control «end» ((((i : ℚ) + 1) / 20) * (if t ≤ 1 then t else 1)))

/-- Sample points of drawPartialCubicBezier (lines 983-990). -/
def samplePartialCubic (start cp1 cp2 «end» : Point) (t : ℚ) : List Point :=
  let steps := (Int.ceil (t * 30)).toNat
  (List.range steps).map (fun i =>
    bezierPoint start cp1 cp2 «end» ((((i : ℚ) + 1) / 30) * (if t ≤ 1 then t else 1)))

/-- drawLinePath (lines 952-966): moveTo the start then either bezier samples
(the source passes the raw `overlay.endPoint` to the samplers; an absent
endPoint would be NaN geometry in JS and is modelled by the same default the
caller computed) or a straight segment to the current end. -/
def drawLinePath (o : Overlay) (startPoint currentEnd : Point) (progress : ℚ) : List Point :=
  match o.controlPoint1, o.controlPoint2 with
  | some c1, some c2 =>
    startPoint :: samplePartialCubic startPoint c1 c2 (o.endPoint.getD ⟨100, 100⟩) progress
  | _, _ =>
    match o.controlPoint with
    | some c => startPoint :: samplePartialQuad startPoint c (o.endPoint.getD ⟨100, 100⟩) progress
    | none => [startPoint, currentEnd]

/-- renderArrow (lines 867-947), shared by the "arrow" and "line" types:
animated draw progress, current end point on the straight line or bezier,
optional glow pass, main stroke, and an arrow head once
`(overlay.type === 'arrow' || style.arrowHead !== false)` and the progress
exceeds 0.1. -/
def renderArrow (o : Overlay) (currentFrame : ℤ) : List DrawCmd :=
  let style := o.style
  let startPoint := o.startPoint.getD ⟨0, 0⟩
  let endPoint := o.endPoint.getD ⟨100, 100⟩
  let drawProgress : ℚ :=
    if style.animated ≠ some false then
      min 1 (((currentFrame - o.frameStart : ℤ) : ℚ) / qOrD style.animationFrames 24)
    else 1
  let currentEnd : Point :=
    match o.controlPoint1, o.controlPoint2 with
    | some c1, some c2 => bezierPoint startPoint c1 c2 endPoint drawProgress
    | _, _ =>
      match o.controlPoint with
      | some c => quadraticBezierPoint startPoint c endPoint drawProgress
      | none => { x := startPoint.x + (endPoint.x - startPoint.x) * drawProgress,
                  y := startPoint.y + (endPoint.y - startPoint.y) * drawProgress }
  let path := drawLinePath o startPoint currentEnd drawProgress
  (if sTruthy style.glowColor then [DrawCmd.linePath path, DrawCmd.strokeCmd] else []) ++
  [DrawCmd.linePath path, DrawCmd.strokeCmd] ++
  (if (o.type = "arrow" ∨ style.arrowHead ≠ some false) ∧ drawProgress > 1 / 10
   then [DrawCmd.arrowHead currentEnd] else [])

/-! ### Engine state, dispatcher and CRUD -/

/-- CRT post-processing configuration (constructor lines 45-54). -/
structure Effects where
  scanlines : Bool := false
  scanlineOpacity : ℚ := 15 / 100
  scanlineSpacing : ℚ := 2
  flicker : Bool := false
  flickerIntensity : ℚ := 2 / 100
  vignette : Bool := false
  vignetteIntensity : ℚ := 3 / 10
  deriving DecidableEq, Repr

/-- renderEffects (lines 1131-1172): full-frame passes; the flicker alpha is
`Math.random()`-driven and carried as an opaque pass command. -/
def renderEffects (e : Effects) : List DrawCmd :=
  (if e.flicker then [DrawCmd.flickerPass] else []) ++
  (if e.scanlines then [DrawCmd.scanlinePass] else []) ++
  (if e.vignette then [DrawCmd.vignettePass] else [])

/-- The mutable engine object (constructor lines 9-59), restricted to the
fields the overlay/tracking/rendering core reads. -/
structure EngineState where
  fps : ℚ := 24
  currentFrame : ℤ := 0
  totalFrames : ℤ := 0
  videoWidth : ℚ := 0
  videoHeight : ℚ := 0
  isPlaying : Bool := false
  overlays : List Overlay := []
  activeOverlays : List Overlay := []
  collisionAreas : List Area := []
  trackedObjects : List Track := []
  effects : Effects := {}
  deriving DecidableEq, Repr

/-- The active-overlay predicate of render (lines 305-308):
`currentFrame >= frameStart && currentFrame <= frameEnd`. -/
def isActive (f : ℤ) (o : Overlay) : Bool :=
  decide (f ≥ o.frameStart) && decide (f ≤ o.frameEnd)

/-- Tracked-object attachment step of renderOverlay (lines 330-341): when the
trackId is set (truthy) and resolves, the resolved bounds plus offset are
written into the overlay's x/y (and width/height when trackSize is set).  In
JS this mutates the stored overlay object in place. -/
def resolveTracked (tracks : List Track) (currentFrame : ℤ) (o : Overlay) : Overlay :=
  match o.trackId with
  | none => o
  | some tid =>
    if tid = "" then o
    else
      match getTrackedBounds tracks tid currentFrame with
      | none => o
      | some b =>
        let o1 := { o with x := b.x + ((o.trackOffset.map Point.x).getD 0),
                           y := b.y + ((o.trackOffset.map Point.y).getD 0) }
        if o.trackSize then { o1 with width := b.width, height := b.height } else o1

/-- Transform setup of renderOverlay (lines 344-349), recorded as a command
carrying the rotation/scale parameters about the overlay center. -/
def transformCmds (o : Overlay) : List DrawCmd :=
  match o.transform with
  | none => []
  | some tr =>
    [DrawCmd.applyTransform (o.x + o.width / 2) (o.y + o.height / 2) tr.rotate tr.scale]

/-- Drawing commands of the type switch of renderOverlay (lines 351-387):
ascii and popup can throw; an unknown type is a logged no-op. -/
def dispatchCmds (ctx : Ctx) (currentFrame : ℤ) (o : Overlay) :
    Except JsError (List DrawCmd) :=
  if o.type = "text" then .ok (renderText o)
  else if o.type = "caption" then .ok (renderCaption ctx o)
  else if o.type = "shape" then .ok (renderShape o)
  else if o.type = "ascii" then renderAscii o
  else if o.type = "outline" then .ok (renderOutline o)
  else if o.type = "qte" then .ok (renderQTECmds o)
  else if o.type = "popup" then renderPopup ctx o
  else if o.type = "image" then .ok ((renderImage o).2)
  else if o.type = "terminal_text" then .ok (renderTerminalText ctx o currentFrame)
  else if o.type = "arrow" ∨ o.type = "line" then .ok (renderArrow o currentFrame)
  else .ok []

/-- Collision-registry effect of the type switch: only renderQTE touches the
registry (lines 602-614), and only when `interactive !== false`. -/
def dispatchAreas (o : Overlay) (areas : List Area) : List Area :=
  if o.type = "qte" ∧ o.interactive ≠ some false
  then registerCollisionArea areas (qteArea o) else areas

/-- The type switch of renderOverlay (lines 351-387), combining the drawing
commands and the registry effect.  The qte branch (the only one that registers
and one that never throws) registers exactly when `dispatchAreas` says so, so
this product form is extensionally the source's switch.  The image branch's
overlay mutation (handle caching) is `cacheImageHandle`, applied by
`renderOverlayStep`. -/
def dispatchRender (ctx : Ctx) (currentFrame : ℤ) (o : Overlay) (areas : List Area) :
    Except JsError (List Area × List DrawCmd) :=
  (dispatchCmds ctx currentFrame o).map (fun c => (dispatchAreas o areas, c))

/-- The in-place overlay mutation of the image branch (line 699): the first
reference stores a fresh, not-yet-complete image handle on the overlay.  It
equals `(renderImage o).1` and is the identity on every other overlay. -/
def cacheImageHandle (o : Overlay) : Overlay :=
  if o.type = "image" ∧ o.imageElement = none then
    { o with imageElement := some { complete := false, naturalWidth := 0, naturalHeight := 0 } }
  else o

/-- renderOverlay (lines 326-395) for one overlay: tracked-bounds resolution,
transform setup, then type dispatch; the returned overlay is the stored
object after the pass's in-place mutations.  The onOverlayTrigger
notification is a one-way external callback and carries no engine state. -/
def renderOverlayStep (ctx : Ctx) (tracks : List Track) (currentFrame : ℤ)
    (areas : List Area) (o : Overlay) : Except JsError (Overlay × List Area × List DrawCmd) :=
  (dispatchRender ctx currentFrame (resolveTracked tracks currentFrame o) areas).map
    (fun r => (cacheImageHandle (resolveTracked tracks currentFrame o), r.1,
      transformCmds (resolveTracked tracks currentFrame o) ++ r.2))

/-- The per-overlay loop of render (lines 311-313): sequential, no try/catch,
so one renderer's exception aborts the rest of the frame. -/
def renderActives (ctx : Ctx) (tracks : List Track) (currentFrame : ℤ) :
    List Overlay → List Area → Except JsError (List Overlay × List Area × List DrawCmd)
  | [], areas => .ok ([], areas, [])
  | o :: rest, areas =>
    match renderOverlayStep ctx tracks currentFrame areas o with
    | .error e => .error e
    | .ok (o1, areas1, cmds) =>
      match renderActives ctx tracks currentFrame rest areas1 with
      | .error e => .error e
      | .ok (rest1, areas2, cmds2) => .ok (o1 :: rest1, areas2, cmds ++ cmds2)

/-- The in-place effect of a render pass on one stored overlay: tracked-bounds
mutation (lines 330-341) plus the image-handle caching of renderImage
(line 699).  Only overlays iterated by the render loop undergo this. -/
def overlayAfterRender (tracks : List Track) (currentFrame : ℤ) (o : Overlay) : Overlay :=
  cacheImageHandle (resolveTracked tracks currentFrame o)

/-- render (lines 298-320): clear, select active overlays in store order,
render each, apply post-processing effects, and rebuild the collision registry
by dropping areas whose overlay is not active (updateCollisionAreas,
lines 1186-1190).  The stored overlays aliased by the active list carry the
render pass's in-place mutations. -/
def render (ctx : Ctx) (s : EngineState) : Except JsError (EngineState × List DrawCmd) :=
  let act0 := s.overlays.filter (isActive s.currentFrame)
  match renderActives ctx s.trackedObjects s.currentFrame act0 s.collisionAreas with
  | .error e => .error e
  | .ok (act, areas1, cmds) =>
    let overlays1 := s.overlays.map (fun o =>
      if isActive s.currentFrame o then overlayAfterRender s.trackedObjects s.currentFrame o else o)
    let areas2 := areas1.filter (fun a => act.any (fun o => o.id == a.id))
    .ok ({ s with overlays := overlays1, activeOverlays := act, collisionAreas := areas2 },
         cmds ++ renderEffects s.effects)

/-- checkCollision (lines 1195-1203): first registered area containing the
point. -/
def checkCollision (s : EngineState) (x y : ℚ) : Option Area :=
  s.collisionAreas.find? (fun a =>
    decide (x ≥ a.x) && decide (x ≤ a.x + a.width) &&
    decide (y ≥ a.y) && decide (y ≤ a.y + a.height))

/-- seekToFrame (lines 223-232): clamp to `[0, totalFrames-1]` and render. -/
def seekToFrame (ctx : Ctx) (s : EngineState) (frame : ℤ) :
    Except JsError (EngineState × List DrawCmd) :=
  let f := max 0 (min frame (s.totalFrames - 1))
  render ctx { s with currentFrame := f }

/-- Apply an update to the first overlay with a matching id, as
`this.overlays.find(...)` + `Object.assign` does (lines 1268-1270). -/
def updateFirst (l : List Overlay) (id : String) (upd : Overlay → Overlay) : List Overlay :=
  match l with
  | [] => []
  | o :: rest => if o.id = id then upd o :: rest else o :: updateFirst rest id upd

/-- updateOverlay (lines 1267-1273): when an overlay with the id exists, merge
the updates into it and render; otherwise do nothing at all.  The Bool
records whether a render was triggered. -/
def updateOverlay (ctx : Ctx) (s : EngineState) (id : String) (upd : Overlay → Overlay) :
    Except JsError (EngineState × Bool) :=
  if s.overlays.any (fun o => o.id == id) then
    match render ctx { s with overlays := updateFirst s.overlays id upd } with
    | .error e => .error e
    | .ok (s1, _) => .ok (s1, true)
  else .ok (s, false)

/-- removeOverlay (lines 1257-1260). -/
def removeOverlay (ctx : Ctx) (s : EngineState) (id : String) :
    Except JsError (EngineState × List DrawCmd) :=
  render ctx { s with overlays := s.overlays.filter (fun o => o.id != id) }

/-- getOverlay (lines 1278-1280). -/
def getOverlay (s : EngineState) (id : String) : Option Overlay :=
  s.overlays.find? (fun o => o.id == id)

/-! ### Project import/export (lines 1417-1461) -/

/-- The persisted project shape.  An absent `fps` is modelled as 0 — both are
falsy at the `if (project.fps)` check in loadProject. -/
structure Project where
  version : String := "1.0"
  fps : ℚ := 0
  videoWidth : ℚ := 0
  videoHeight : ℚ := 0
  totalFrames : ℤ := 0
  overlays : List Overlay := []
  trackedObjects : List Track := []
  deriving DecidableEq, Repr

/-- JS `Map.set` on the id-keyed track map: replace in place or append. -/
def mapSet (m : List Track) (t : Track) : List Track :=
  if m.any (fun u => u.id == t.id) then m.map (fun u => if u.id = t.id then t else u)
  else m ++ [t]

/-- loadProject (lines 1417-1441), object form (the JSON-string form only
prepends a parse): adopt the project's fps when truthy, replace overlays,
rebuild the track map, and render.  Note it does NOT restore videoWidth,
videoHeight or totalFrames — those come from loadVideo. -/
def loadProject (ctx : Ctx) (s : EngineState) (p : Project) : Except JsError EngineState :=
  let s1 := if p.fps ≠ 0 then { s with fps := p.fps } else s
  let s2 := { s1 with overlays := p.overlays,
                      trackedObjects := p.trackedObjects.foldl mapSet [] }
  (render ctx s2).map (fun r => r.1)

/-- The runtime-field strip of exportProject (lines 1454-1458): drop the
cached image handle. -/
def stripRuntime (o : Overlay) : Overlay := { o with imageElement := none }

/-- exportProject (lines 1447-1461). -/
def exportProject (s : EngineState) : Project :=
  { version := "1.0", fps := s.fps, videoWidth := s.videoWidth,
    videoHeight := s.videoHeight, totalFrames := s.totalFrames,
    overlays := s.overlays.map stripRuntime, trackedObjects := s.trackedObjects }

/-! ### Theorems -/

/-- C7: for every fps > 0 and every frame number f, converting the frame to
time and back yields the same frame: frameAt(timeAt(f)) = f, with
frameAt(t) = floor(t * fps) and timeAt(f) = f / fps. -/
theorem c7_frame_time_roundtrip (fps : ℚ) (f : ℤ) (h : 0 < fps) :
    timeToFrame fps (frameToTime fps f) = f := by
  unfold timeToFrame frameToTime
  rw [div_mul_cancel₀ _ (ne_of_gt h), Int.floor_intCast]

/-- Witness for C7 at fps = 24, f = 7. -/
theorem c7_frame_time_roundtrip_witness :
    (0 : ℚ) < 24 ∧ timeToFrame 24 (frameToTime 24 7) = 7 :=
  ⟨by norm_num, c7_frame_time_roundtrip 24 7 (by norm_num)⟩

/-- C5: with the typewriter enabled, the number of visible characters equals
floor((currentFrame - frameStart - delay) * charsPerFrame) clamped to
[0, content length] (charsPerFrame as resolved by `style.charsPerFrame || 0.5`
is nonnegative). -/
theorem c5_typewriter_visibleChars (style : Style) (content : String) (f fs : ℤ)
    (htw : style.typewriter ≠ some false)
    (hcpf : 0 ≤ qOrD style.charsPerFrame (1 / 2)) :
    visibleCharsOf style content f fs =
      max 0 (min (content.length : ℤ)
        ⌊(((f - fs : ℤ) : ℚ) - qOrD style.typewriterDelay 0) *
          qOrD style.charsPerFrame (1 / 2)⌋) := by
  unfold visibleCharsOf
  rw [if_neg htw]
  dsimp only
  set cpf := qOrD style.charsPerFrame (1 / 2) with hcpfdef
  set e : ℚ := ((f - fs : ℤ) : ℚ) - qOrD style.typewriterDelay 0 with hedef
  rcases le_or_lt 0 e with he | he
  · rw [max_eq_right he, eq_comm, max_eq_right]
    exact le_min (Int.ofNat_nonneg _) (Int.floor_nonneg.mpr (mul_nonneg he hcpf))
  · rw [max_eq_left (le_of_lt he), zero_mul, Int.floor_zero,
      min_eq_right (Int.ofNat_nonneg _), eq_comm]
    have hle : e * cpf ≤ 0 := by
      calc e * cpf ≤ 0 * cpf := mul_le_mul_of_nonneg_right (le_of_lt he) hcpf
      _ = 0 := zero_mul cpf
    have hfl : ⌊e * cpf⌋ ≤ 0 := by
      calc ⌊e * cpf⌋ ≤ ⌊(0 : ℚ)⌋ := Int.floor_le_floor hle
      _ = 0 := Int.floor_zero
    exact max_eq_left (le_trans (min_le_right _ _) hfl)

/-- Witness for C5: content of length 10, charsPerFrame 0.5 (the default),
frameStart 0, delay 0; also the concrete values of the spec scenario: 0
visible characters at frame 0, all 10 at frame 20, still 10 at frame 100. -/
theorem c5_typewriter_visibleChars_witness :
    (visibleCharsOf {} "0123456789" 20 0 =
      max 0 (min ((String.length "0123456789" : ℤ))
        ⌊(((20 - 0 : ℤ) : ℚ) - qOrD (Style.typewriterDelay {}) 0) *
          qOrD (Style.charsPerFrame {}) (1 / 2)⌋)) ∧
    visibleCharsOf {} "0123456789" 0 0 = 0 ∧
    visibleCharsOf {} "0123456789" 20 0 = 10 ∧
    visibleCharsOf {} "0123456789" 100 0 = 10 :=
  ⟨c5_typewriter_visibleChars {} "0123456789" 20 0 (by decide) (by norm_num [qOrD]),
   by simp [visibleCharsOf, qOrD],
   by simp [visibleCharsOf, qOrD, show "0123456789".length = 10 from rfl]; norm_num,
   by simp [visibleCharsOf, qOrD, show "0123456789".length = 10 from rfl]; norm_num⟩

/-- getLast? of a cons list in terms of getLastD, matching the source's
`keyframes[keyframes.length - 1]` on a nonempty array. -/
theorem getLast?_cons_getLastD {α : Type} (a : α) (l : List α) :
    (a :: l).getLast? = some (l.getLastD a) := by
  rw [List.getLastD_eq_getLast?]
  cases h : l.getLast? with
  | none => simp [List.getLast?_eq_none_iff] at h; subst h; rfl
  | some x => rw [List.getLast?_cons, h]

/-- In a strictly frame-sorted keyframe list the head's frame is at most the
last's. -/
theorem chain_le_getLastD : ∀ (ks : List Keyframe) (k0 : Keyframe),
    List.Chain' (fun a b => a.frame < b.frame) (k0 :: ks) →
    k0.frame ≤ (ks.getLastD k0).frame := by
  intro ks
  induction ks with
  | nil => intro k0 _; simp [List.getLastD]
  | cons k1 rest ih =>
    intro k0 hch
    have h01 := (List.chain'_cons.mp hch).1
    have htail := ih k1 (List.chain'_cons.mp hch).2
    calc k0.frame ≤ k1.frame := le_of_lt h01
    _ ≤ _ := by rw [List.getLastD_cons]; exact htail

/-- The bracket-search loop of getTrackedBounds: on a strictly sorted keyframe
list, when the frame is strictly between the first and last keyframes, the
loop finds an adjacent pair enclosing it. -/
theorem findBracket_spec (f : ℤ) :
    ∀ (kfs : List Keyframe),
      List.Chain' (fun a b => a.frame < b.frame) kfs →
      ∀ k0, kfs.head? = some k0 → k0.frame < f →
      ∀ klast, kfs.getLast? = some klast → f < klast.frame →
      ∃ l1 pr nx l2, kfs = l1 ++ pr :: nx :: l2 ∧
        pr.frame ≤ f ∧ f ≤ nx.frame ∧ findBracket f kfs = some (pr, nx)
  | [] => by intro _ k0 h0; simp at h0
  | [k] => by
    intro _ k0 h0 hk0f klast hl hfl
    simp at h0 hl
    subst h0; subst hl
    omega
  | k1 :: k2 :: rest => by
    intro hch k0 h0 hk0f klast hl hfl
    simp at h0
    subst h0
    by_cases hbr : k1.frame ≤ f ∧ f ≤ k2.frame
    · refine ⟨[], k1, k2, rest, rfl, hbr.1, hbr.2, ?_⟩
      simp [findBracket, hbr]
    · have h12 := (List.chain'_cons.mp hch).1
      have hch2 := (List.chain'_cons.mp hch).2
      have hk2f : k2.frame < f := by
        rcases not_and_or.mp hbr with h | h
        · omega
        · omega
      have hl2 : (k2 :: rest).getLast? = some klast := by
        rw [← List.getLast?_cons_cons (a := k1)]; exact hl
      obtain ⟨l1, pr, nx, l2, heq, hp1, hp2, hp3⟩ :=
        findBracket_spec f (k2 :: rest) hch2 k2 rfl hk2f klast hl2 hfl
      refine ⟨k1 :: l1, pr, nx, l2, by rw [List.cons_append, ← heq], hp1, hp2, ?_⟩
      simp only [findBracket]
      rw [if_neg hbr]
      exact hp3

/-- C4: the tracked-bounds query follows exactly the four-branch policy —
null for an unknown track, an empty keyframe list or a frame outside
[startFrame, endFrame]; the first keyframe's bounds unchanged at or before the
first keyframe; the last keyframe's bounds unchanged at or after the last;
otherwise linear interpolation between the two bracketing keyframes with
t = (frame - prevFrame) / (nextFrame - prevFrame).  The keyframe list is
strictly frame-sorted, the invariant addKeyframe maintains. -/
theorem c4_trackedBounds_policy (tracks : List Track) (tid : String) (f : ℤ) :
    (getTrack tracks tid = none → getTrackedBounds tracks tid f = none) ∧
    (∀ track, getTrack tracks tid = some track →
      (track.keyframes = [] → getTrackedBounds tracks tid f = none) ∧
      ((f < track.startFrame ∨ f > track.endFrame) → getTrackedBounds tracks tid f = none) ∧
      (∀ k0 ks, track.keyframes = k0 :: ks →
        List.Chain' (fun a b => a.frame < b.frame) (k0 :: ks) →
        track.startFrame ≤ f → f ≤ track.endFrame →
        (f ≤ k0.frame → getTrackedBounds tracks tid f = some k0.bounds) ∧
        ((ks.getLastD k0).frame ≤ f →
          getTrackedBounds tracks tid f = some (ks.getLastD k0).bounds) ∧
        (k0.frame < f → f < (ks.getLastD k0).frame →
          ∃ l1 pr nx l2, k0 :: ks = l1 ++ pr :: nx :: l2 ∧
            pr.frame ≤ f ∧ f ≤ nx.frame ∧
            getTrackedBounds tracks tid f =
              some (lerpBounds pr.bounds nx.bounds
                (((f - pr.frame : ℤ) : ℚ) / ((nx.frame - pr.frame : ℤ) : ℚ)))))) := by
  constructor
  · intro h
    simp only [getTrackedBounds, h]
  · intro track hget
    refine ⟨?_, ?_, ?_⟩
    · intro hk
      simp only [getTrackedBounds, hget, hk]
    · intro hout
      simp only [getTrackedBounds, hget]
      cases hk : track.keyframes with
      | nil => rfl
      | cons k0 ks =>
        dsimp only
        unfold boundsFromKeyframes
        rw [if_pos hout]
    · intro k0 ks hk hch hin1 hin2
      have hmain : getTrackedBounds tracks tid f =
          boundsFromKeyframes track.startFrame track.endFrame k0 ks f := by
        simp only [getTrackedBounds, hget, hk]
      have hnotout : ¬(f < track.startFrame ∨ f > track.endFrame) := by omega
      refine ⟨?_, ?_, ?_⟩
      · intro hpre
        rw [hmain]
        unfold boundsFromKeyframes
        rw [if_neg hnotout, if_pos hpre]
      · intro hpost
        rw [hmain]
        unfold boundsFromKeyframes
        rw [if_neg hnotout]
        by_cases hpre : f ≤ k0.frame
        · cases hks : ks with
          | nil =>
            rw [if_pos hpre]
            simp [List.getLastD]
          | cons k1 rest =>
            exfalso
            have hstep := (List.chain'_cons.mp (hks ▸ hch)).1
            have hrest := chain_le_getLastD rest k1 (hks ▸ hch).tail
            have : (ks.getLastD k0).frame = (rest.getLastD k1).frame := by
              rw [hks, List.getLastD_cons]
            omega
        · rw [if_neg hpre]
          dsimp only
          rw [if_pos hpost]
      · intro hlt hltl
        obtain ⟨l1, pr, nx, l2, heq, hp1, hp2, hp3⟩ :=
          findBracket_spec f (k0 :: ks) hch k0 rfl hlt (ks.getLastD k0)
            (getLast?_cons_getLastD k0 ks) hltl
        refine ⟨l1, pr, nx, l2, heq, hp1, hp2, ?_⟩
        rw [hmain]
        unfold boundsFromKeyframes
        rw [if_neg hnotout, if_neg (not_le.mpr hlt)]
        dsimp only
        rw [if_neg (not_le.mpr hltl), hp3]
        rfl

/-- First keyframe of the spec's track-interpolation scenario: frame 0,
x = 0. -/
def c4kf0 : Keyframe :=
  { frame := 0, bounds := { x := 0, y := 0, width := 50, height := 50 } }

/-- Second keyframe of the scenario: frame 10, x = 100. -/
def c4kf10 : Keyframe :=
  { frame := 10, bounds := { x := 100, y := 0, width := 50, height := 50 } }

/-- The scenario's track, valid over frames 0-30. -/
def c4track : Track :=
  { id := "t1", startFrame := 0, endFrame := 30, keyframes := [c4kf0, c4kf10] }

/-- Witness for C4 on the spec's scenario: frame -1 is out of range (null),
frame 0 pre-holds the first keyframe, frame 20 post-holds the last, and
frame 5 interpolates between the bracketing keyframes. -/
theorem c4_trackedBounds_policy_witness :
    getTrackedBounds [c4track] "t1" (-1) = none ∧
    getTrackedBounds [c4track] "t1" 0 = some c4kf0.bounds ∧
    getTrackedBounds [c4track] "t1" 20 = some ([c4kf10].getLastD c4kf0).bounds ∧
    (∃ l1 pr nx l2, c4kf0 :: [c4kf10] = l1 ++ pr :: nx :: l2 ∧
      pr.frame ≤ 5 ∧ (5 : ℤ) ≤ nx.frame ∧
      getTrackedBounds [c4track] "t1" 5 =
        some (lerpBounds pr.bounds nx.bounds
          (((5 - pr.frame : ℤ) : ℚ) / ((nx.frame - pr.frame : ℤ) : ℚ)))) :=
  ⟨((c4_trackedBounds_policy [c4track] "t1" (-1)).2 c4track rfl).2.1 (Or.inl (by decide)),
   (((c4_trackedBounds_policy [c4track] "t1" 0).2 c4track rfl).2.2 c4kf0 [c4kf10] rfl
      (List.chain'_cons.mpr ⟨by decide, List.chain'_singleton _⟩) (by decide) (by decide)).1 (by decide),
   (((c4_trackedBounds_policy [c4track] "t1" 20).2 c4track rfl).2.2 c4kf0 [c4kf10] rfl
      (List.chain'_cons.mpr ⟨by decide, List.chain'_singleton _⟩) (by decide) (by decide)).2.1 (by decide),
   (((c4_trackedBounds_policy [c4track] "t1" 5).2 c4track rfl).2.2 c4kf0 [c4kf10] rfl
      (List.chain'_cons.mpr ⟨by decide, List.chain'_singleton _⟩) (by decide) (by decide)).2.2 (by decide) (by decide)⟩

/-- C10: updating an overlay by an id not present in the store is a silent
no-op: the state (overlay list included) is unchanged, no error is raised,
and no render is triggered. -/
theorem c10_update_missing_noop (ctx : Ctx) (s : EngineState) (id : String)
    (upd : Overlay → Overlay) (h : ∀ o ∈ s.overlays, o.id ≠ id) :
    updateOverlay ctx s id upd = .ok (s, false) := by
  unfold updateOverlay
  rw [if_neg]
  intro hc
  obtain ⟨o, ho, hid⟩ := List.any_eq_true.mp hc
  exact h o ho (by simpa using hid)

/-- Witness for C10: a store holding one overlay with id "a", updated at the
missing id "b". -/
theorem c10_update_missing_noop_witness :
    updateOverlay { measure := fun _ => 0, nowMs := 0 }
      { overlays := [{ id := "a", type := "text" }] } "b" (fun o => { o with x := 99 }) =
      .ok ({ overlays := [{ id := "a", type := "text" }] }, false) :=
  c10_update_missing_noop { measure := fun _ => 0, nowMs := 0 }
    { overlays := [{ id := "a", type := "text" }] } "b" (fun o => { o with x := 99 })
    (by intro o ho; simp at ho; subst ho; decide)

/-! ### Render-pass lemmas -/

/-- Tracked-bounds resolution only rewrites geometry: every other overlay
field is unchanged. -/
theorem resolveTracked_preserves (tracks : List Track) (f : ℤ) (o : Overlay) :
    (resolveTracked tracks f o).id = o.id ∧
    (resolveTracked tracks f o).type = o.type ∧
    (resolveTracked tracks f o).frameStart = o.frameStart ∧
    (resolveTracked tracks f o).frameEnd = o.frameEnd ∧
    (resolveTracked tracks f o).interactive = o.interactive ∧
    (resolveTracked tracks f o).key = o.key ∧
    (resolveTracked tracks f o).action = o.action ∧
    (resolveTracked tracks f o).imageElement = o.imageElement ∧
    (resolveTracked tracks f o).style = o.style := by
  unfold resolveTracked
  repeat' split
  all_goals exact ⟨rfl, rfl, rfl, rfl, rfl, rfl, rfl, rfl, rfl⟩

/-- Image-handle caching only rewrites the imageElement field. -/
theorem cacheImageHandle_preserves (o : Overlay) :
    (cacheImageHandle o).id = o.id ∧
    (cacheImageHandle o).type = o.type ∧
    (cacheImageHandle o).frameStart = o.frameStart ∧
    (cacheImageHandle o).frameEnd = o.frameEnd ∧
    (cacheImageHandle o).interactive = o.interactive ∧
    (cacheImageHandle o).key = o.key ∧
    (cacheImageHandle o).x = o.x ∧
    (cacheImageHandle o).y = o.y ∧
    (cacheImageHandle o).width = o.width ∧
    (cacheImageHandle o).height = o.height ∧
    (cacheImageHandle o).style = o.style := by
  unfold cacheImageHandle
  split
  all_goals exact ⟨rfl, rfl, rfl, rfl, rfl, rfl, rfl, rfl, rfl, rfl, rfl⟩

/-- Image-handle caching is the identity on non-image overlays. -/
theorem cacheImageHandle_eq_self (o : Overlay) (h : o.type ≠ "image") :
    cacheImageHandle o = o := by
  unfold cacheImageHandle
  rw [if_neg]
  intro hc
  exact h hc.1

/-- A render pass does not move an overlay's activation window. -/
theorem overlayAfterRender_isActive (tracks : List Track) (f g : ℤ) (o : Overlay) :
    isActive g (overlayAfterRender tracks f o) = isActive g o := by
  unfold isActive overlayAfterRender
  rw [(cacheImageHandle_preserves _).2.2.1, (cacheImageHandle_preserves _).2.2.2.1,
    (resolveTracked_preserves tracks f o).2.2.1, (resolveTracked_preserves tracks f o).2.2.2.1]

/-- A render pass does not change an overlay's id. -/
theorem overlayAfterRender_id (tracks : List Track) (f : ℤ) (o : Overlay) :
    (overlayAfterRender tracks f o).id = o.id := by
  unfold overlayAfterRender
  rw [(cacheImageHandle_preserves _).1, (resolveTracked_preserves tracks f o).1]

/-- The collision-registry effect of one dispatch: only an interactive qte
overlay touches the areas, replacing/appending its own area. -/
theorem dispatchRender_areas (ctx : Ctx) (f : ℤ) (o : Overlay) (A : List Area)
    (p : List Area × List DrawCmd) (h : dispatchRender ctx f o A = .ok p) :
    p.1 = dispatchAreas o A := by
  unfold dispatchRender at h
  cases hc : dispatchCmds ctx f o with
  | error e => rw [hc] at h; exact absurd h (by simp [Except.map])
  | ok c =>
    rw [hc] at h
    simp only [Except.map] at h
    rw [Except.ok.injEq] at h
    subst h
    rfl

/-- One render-loop step: the returned overlay is the mutated stored object
and the areas evolve by the qte registration rule. -/
theorem renderOverlayStep_ok (ctx : Ctx) (tracks : List Track) (f : ℤ) (A : List Area)
    (o : Overlay) (r : Overlay × List Area × List DrawCmd)
    (h : renderOverlayStep ctx tracks f A o = .ok r) :
    r.1 = overlayAfterRender tracks f o ∧
    r.2.1 = dispatchAreas (resolveTracked tracks f o) A := by
  unfold renderOverlayStep at h
  cases hd : dispatchRender ctx f (resolveTracked tracks f o) A with
  | error e =>
    rw [hd] at h
    exact absurd h (by simp [Except.map])
  | ok p =>
    rw [hd] at h
    simp only [Except.map] at h
    rw [Except.ok.injEq] at h
    subst h
    exact ⟨rfl, dispatchRender_areas ctx f _ A p hd⟩

/-- The render loop returns exactly the mutated active overlays, in order. -/
theorem renderActives_overlays (ctx : Ctx) (tracks : List Track) (f : ℤ) :
    ∀ (L : List Overlay) (A : List Area) r,
      renderActives ctx tracks f L A = .ok r →
      r.1 = L.map (overlayAfterRender tracks f)
  | [], A, r => by
    intro h
    unfold renderActives at h
    rw [Except.ok.injEq] at h
    subst h
    rfl
  | o :: rest, A, r => by
    intro h
    unfold renderActives at h
    split at h
    · exact absurd h (by simp)
    · rename_i o1 a1 c1 hs
      split at h
      · exact absurd h (by simp)
      · rename_i rest1 a2 c2 hr
        rw [Except.ok.injEq] at h
        subst h
        have h1 := (renderOverlayStep_ok ctx tracks f A o (o1, a1, c1) hs).1
        have h2 := renderActives_overlays ctx tracks f rest a1 (rest1, a2, c2) hr
        simp only [List.map_cons]
        rw [← h1, ← h2]

/-- Areas surviving an id-exclusion filter never match that id. -/
theorem filter_neq_filter_eq (A : List Area) (i : String) :
    (A.filter (fun b => b.id != i)).filter (fun b => b.id == i) = [] := by
  induction A with
  | nil => rfl
  | cons x xs ih =>
    by_cases hx : x.id = i
    · simp only [List.filter_cons, hx]
      simp
    · simp only [List.filter_cons, hx]
      simp [hx]

/-- After registering an area, exactly that area carries its id. -/
theorem filter_register_eq (A : List Area) (a : Area) :
    (registerCollisionArea A a).filter (fun b => b.id == a.id) = [a] := by
  unfold registerCollisionArea
  rw [List.filter_append, filter_neq_filter_eq]
  simp

/-- Registering an area does not disturb areas of other ids. -/
theorem filter_register_ne (A : List Area) (a : Area) (i : String) (h : a.id ≠ i) :
    (registerCollisionArea A a).filter (fun b => b.id == i) =
      A.filter (fun b => b.id == i) := by
  unfold registerCollisionArea
  rw [List.filter_append]
  have h2 : List.filter (fun b => b.id == i) [a] = [] := by simp [h]
  rw [h2, List.append_nil]
  induction A with
  | nil => rfl
  | cons x xs ih =>
    by_cases hx : x.id = i
    · have hxa : x.id ≠ a.id := by rw [hx]; exact fun hc => h hc.symm
      simp [List.filter_cons, hx, hxa, ih, h, Ne.symm h]
    · by_cases hxa : x.id = a.id
      · simp [List.filter_cons, hx, hxa, ih, h, Ne.symm h]
      · simp [List.filter_cons, hx, hxa, ih, h, Ne.symm h]

/-- The registry effect of one dispatch, viewed through a single id. -/
theorem dispatchAreas_filter (o : Overlay) (A : List Area) (i : String) :
    (dispatchAreas o A).filter (fun b => b.id == i) =
      if o.type = "qte" ∧ o.interactive ≠ some false ∧ o.id = i
      then [qteArea o]
      else A.filter (fun b => b.id == i) := by
  unfold dispatchAreas
  by_cases hq : o.type = "qte" ∧ o.interactive ≠ some false
  · rw [if_pos hq]
    by_cases hi : o.id = i
    · rw [if_pos ⟨hq.1, hq.2, hi⟩]
      have hq2 := filter_register_eq A (qteArea o)
      rw [show (qteArea o).id = o.id from rfl, hi] at hq2
      exact hq2
    · rw [if_neg (fun hc => hi hc.2.2)]
      exact filter_register_ne A (qteArea o) i
        (by rw [show (qteArea o).id = o.id from rfl]; exact hi)
  · rw [if_neg hq, if_neg (fun hc => hq ⟨hc.1, hc.2.1⟩)]

/-- If no overlay in the loop's list resolves to a given id, the areas with
that id pass through the loop untouched. -/
theorem renderActives_filter_none (ctx : Ctx) (tracks : List Track) (f : ℤ) (i : String) :
    ∀ (L : List Overlay) (A : List Area) r,
      renderActives ctx tracks f L A = .ok r →
      (∀ o ∈ L, (resolveTracked tracks f o).id ≠ i) →
      r.2.1.filter (fun a => a.id == i) = A.filter (fun a => a.id == i)
  | [], A, r => by
    intro h _
    unfold renderActives at h
    rw [Except.ok.injEq] at h
    subst h
    rfl
  | o :: rest, A, r => by
    intro h hno
    unfold renderActives at h
    split at h
    · exact absurd h (by simp)
    · rename_i o1 a1 c1 hs
      split at h
      · exact absurd h (by simp)
      · rename_i rest1 a2 c2 hr
        rw [Except.ok.injEq] at h
        subst h
        have hstep := (renderOverlayStep_ok ctx tracks f A o (o1, a1, c1) hs).2
        have ha1 : a1.filter (fun a => a.id == i) = A.filter (fun a => a.id == i) := by
          rw [show a1 = (o1, a1, c1).2.1 from rfl, hstep, dispatchAreas_filter,
            if_neg (fun hc => hno o (List.mem_cons_self o rest) hc.2.2)]
        have htail := renderActives_filter_none ctx tracks f i rest a1 (rest1, a2, c2) hr
          (fun o2 ho2 => hno o2 (List.mem_cons_of_mem o ho2))
        rw [show ((o1 :: rest1, a2, c1 ++ c2) :
              List Overlay × List Area × List DrawCmd).2.1 = a2 from rfl]
        rw [show ((rest1, a2, c2) : List Overlay × List Area × List DrawCmd).2.1 = a2 from rfl]
          at htail
        rw [htail, ha1]

/-- If an interactive qte overlay with a given id is rendered by the loop and
it is the only list element resolving to that id (up to duplicates of
itself), the loop leaves exactly its area under that id. -/
theorem renderActives_filter_reg (ctx : Ctx) (tracks : List Track) (f : ℤ) (i : String) :
    ∀ (L : List Overlay) (A : List Area) r,
      renderActives ctx tracks f L A = .ok r →
      ∀ o ∈ L, (resolveTracked tracks f o).id = i →
        (resolveTracked tracks f o).type = "qte" →
        (resolveTracked tracks f o).interactive ≠ some false →
        (∀ o2 ∈ L, (resolveTracked tracks f o2).id = i → o2 = o) →
        r.2.1.filter (fun a => a.id == i) = [qteArea (resolveTracked tracks f o)]
  | [], A, r => by
    intro _ o ho
    exact absurd ho (List.not_mem_nil o)
  | x :: rest, A, r => by
    intro h o ho hid htype hint huniq
    unfold renderActives at h
    split at h
    · exact absurd h (by simp)
    · rename_i o1 a1 c1 hs
      split at h
      · exact absurd h (by simp)
      · rename_i rest1 a2 c2 hr
        rw [Except.ok.injEq] at h
        subst h
        rw [show ((o1 :: rest1, a2, c1 ++ c2) :
              List Overlay × List Area × List DrawCmd).2.1 = a2 from rfl]
        have hstep := (renderOverlayStep_ok ctx tracks f A x (o1, a1, c1) hs).2
        by_cases hrest : ∃ o2 ∈ rest, (resolveTracked tracks f o2).id = i
        · obtain ⟨o2, ho2, hid2⟩ := hrest
          have ho2o : o2 = o := huniq o2 (List.mem_cons_of_mem x ho2) hid2
          subst ho2o
          have := renderActives_filter_reg ctx tracks f i rest a1 (rest1, a2, c2) hr
            o2 ho2 hid htype hint
            (fun o3 ho3 hid3 => huniq o3 (List.mem_cons_of_mem x ho3) hid3)
          exact this
        · push_neg at hrest
          have hxo : x = o := by
            rcases List.mem_cons.mp ho with hxo | hmem
            · exact hxo.symm
            · exact absurd hid (hrest o hmem)
          subst hxo
          have ha1 : a1.filter (fun a => a.id == i) = [qteArea (resolveTracked tracks f x)] := by
            rw [show a1 = (o1, a1, c1).2.1 from rfl, hstep, dispatchAreas_filter,
              if_pos ⟨htype, hint, hid⟩]
          have htail := renderActives_filter_none ctx tracks f i rest a1 (rest1, a2, c2) hr hrest
          rw [show ((rest1, a2, c2) : List Overlay × List Area × List DrawCmd).2.1 = a2 from rfl]
            at htail
          rw [htail, ha1]

/-- Shape of a successful render: the active list is the mutated filtered
store, the stored overlays alias those mutations, and the registry is the
loop's areas restricted to active ids (updateCollisionAreas). -/
theorem render_ok (ctx : Ctx) (s s1 : EngineState) (cmds : List DrawCmd)
    (h : render ctx s = .ok (s1, cmds)) :
    ∃ res : List Overlay × List Area × List DrawCmd,
      renderActives ctx s.trackedObjects s.currentFrame
        (s.overlays.filter (isActive s.currentFrame)) s.collisionAreas = .ok res ∧
      s1 = { s with
        overlays := s.overlays.map (fun o =>
          if isActive s.currentFrame o
          then overlayAfterRender s.trackedObjects s.currentFrame o else o),
        activeOverlays := res.1,
        collisionAreas := res.2.1.filter (fun a => res.1.any (fun o => o.id == a.id)) } ∧
      cmds = res.2.2 ++ renderEffects s.effects := by
  unfold render at h
  dsimp only at h
  split at h
  · exact absurd h (by simp)
  · rename_i act a1 c1 hr
    rw [Except.ok.injEq, Prod.mk.injEq] at h
    exact ⟨(act, a1, c1), hr, h.1.symm, h.2.symm⟩

/-- The Bool active-range test agrees with the inclusive-bounds proposition. -/
theorem isActive_iff (f : ℤ) (o : Overlay) :
    isActive f o = true ↔ (o.frameStart ≤ f ∧ f ≤ o.frameEnd) := by
  unfold isActive
  simp [Bool.and_eq_true, decide_eq_true_iff, ge_iff_le, and_comm]

/-- C6: an overlay is in the active set computed by a render at a frame iff
frameStart ≤ frame ≤ frameEnd, both boundaries included (the stored overlays
are compared after the pass, since the active list aliases them). -/
theorem c6_active_iff_in_range (ctx : Ctx) (s s1 : EngineState) (cmds : List DrawCmd)
    (o : Overlay) (h : render ctx s = .ok (s1, cmds)) :
    o ∈ s1.activeOverlays ↔
      (o ∈ s1.overlays ∧ o.frameStart ≤ s.currentFrame ∧ s.currentFrame ≤ o.frameEnd) := by
  obtain ⟨res, hr, hs1, hcmds⟩ := render_ok ctx s s1 cmds h
  have hact := renderActives_overlays ctx s.trackedObjects s.currentFrame _ _ _ hr
  subst hs1
  constructor
  · intro ho
    rw [hact] at ho
    obtain ⟨o0, ho0, rfl⟩ := List.mem_map.mp ho
    obtain ⟨hmem, hact0⟩ := List.mem_filter.mp ho0
    refine ⟨?_, ?_⟩
    · exact List.mem_map.mpr ⟨o0, hmem, by rw [if_pos hact0]⟩
    · have := (isActive_iff s.currentFrame o0).mp hact0
      have hpre : isActive s.currentFrame
          (overlayAfterRender s.trackedObjects s.currentFrame o0) =
          isActive s.currentFrame o0 :=
        overlayAfterRender_isActive s.trackedObjects s.currentFrame s.currentFrame o0
      exact (isActive_iff s.currentFrame _).mp (by rw [hpre]; exact hact0)
  · rintro ⟨ho, hrange⟩
    obtain ⟨o0, ho0, heq⟩ := List.mem_map.mp ho
    by_cases hact0 : isActive s.currentFrame o0
    · rw [if_pos hact0] at heq
      rw [hact]
      exact List.mem_map.mpr ⟨o0, List.mem_filter.mpr ⟨ho0, hact0⟩, heq⟩
    · rw [if_neg hact0] at heq
      subst heq
      exact absurd ((isActive_iff s.currentFrame o0).mpr hrange) hact0

/-- Shared render context for concrete scenarios: a measureText oracle that
reports width 0 and a fixed wall clock. -/
def ctx0 : Ctx := { measure := fun _ => 0, nowMs := 0 }

/-- Engine state after a render, for concrete scenarios (the render's error
case falls back to the input state; the theorems always also record that the
render succeeded). -/
def stateAfterRender (ctx : Ctx) (s : EngineState) : EngineState :=
  match render ctx s with
  | .ok r => r.1
  | .error _ => s

/-- Drawing commands of a render, for concrete scenarios. -/
def cmdsAfterRender (ctx : Ctx) (s : EngineState) : List DrawCmd :=
  match render ctx s with
  | .ok r => r.2
  | .error _ => []

/-- A plain text overlay active over frames 5-9. -/
def c6o : Overlay :=
  { id := "t1", type := "text", frameStart := 5, frameEnd := 9, content := some "a" }

/-- A state positioned at frame 7 holding only that overlay. -/
def c6s : EngineState := { currentFrame := 7, overlays := [c6o] }

/-- Witness for C6 at frame 7 against the 5-9 overlay. -/
theorem c6_active_iff_in_range_witness :
    c6o ∈ (stateAfterRender ctx0 c6s).activeOverlays ↔
      (c6o ∈ (stateAfterRender ctx0 c6s).overlays ∧
        c6o.frameStart ≤ c6s.currentFrame ∧ c6s.currentFrame ≤ c6o.frameEnd) :=
  c6_active_iff_in_range ctx0 c6s (stateAfterRender ctx0 c6s) (cmdsAfterRender ctx0 c6s)
    c6o rfl

/-- Two filters of the same list commute. -/
theorem filter_swap {α : Type} (l : List α) (p q : α → Bool) :
    (l.filter p).filter q = (l.filter q).filter p := by
  induction l with
  | nil => rfl
  | cons x xs ih =>
    by_cases hp : p x <;> by_cases hq : q x <;> simp [List.filter_cons, hp, hq, ih]

/-- C1 (amended): after a successful render whose active overlays have
distinct ids, (a) every collision area belongs to an overlay active at that
frame — no stale area from an overlay that became inactive survives — and
(b) every active qte overlay with interactive ≠ false has exactly its one
area in the registry.  (The converse direction of the original claim fails:
an area may survive for a still-active overlay that stopped being an
interactive qte since it registered, see the counterexample.) -/
theorem c1_registry_amended (ctx : Ctx) (s s1 : EngineState) (cmds : List DrawCmd)
    (h : render ctx s = .ok (s1, cmds))
    (hnodup : (s1.activeOverlays.map (fun o => o.id)).Nodup) :
    (∀ a ∈ s1.collisionAreas, ∃ o ∈ s1.activeOverlays, o.id = a.id) ∧
    (∀ o ∈ s1.activeOverlays, o.type = "qte" → o.interactive ≠ some false →
      s1.collisionAreas.filter (fun a => a.id == o.id) = [qteArea o]) := by
  obtain ⟨res, hr, hs1, hcmds⟩ := render_ok ctx s s1 cmds h
  have hact := renderActives_overlays ctx s.trackedObjects s.currentFrame _ _ _ hr
  subst hs1
  constructor
  · intro a ha
    obtain ⟨hmem, hany⟩ := List.mem_filter.mp ha
    obtain ⟨o, ho, hbeq⟩ := List.any_eq_true.mp hany
    exact ⟨o, ho, by simpa using hbeq⟩
  · intro o ho htype hint
    have ho1 : o ∈ res.1 := ho
    rw [hact] at ho
    obtain ⟨o0, ho0, heq⟩ := List.mem_map.mp ho
    have htype0 : (resolveTracked s.trackedObjects s.currentFrame o0).type = "qte" := by
      have hpres :=
        (cacheImageHandle_preserves (resolveTracked s.trackedObjects s.currentFrame o0)).2.1
      rw [← heq] at htype
      rw [show overlayAfterRender s.trackedObjects s.currentFrame o0 =
        cacheImageHandle (resolveTracked s.trackedObjects s.currentFrame o0) from rfl,
        hpres] at htype
      exact htype
    have hcache : overlayAfterRender s.trackedObjects s.currentFrame o0 =
        resolveTracked s.trackedObjects s.currentFrame o0 := by
      rw [show overlayAfterRender s.trackedObjects s.currentFrame o0 =
        cacheImageHandle (resolveTracked s.trackedObjects s.currentFrame o0) from rfl]
      exact cacheImageHandle_eq_self _ (by rw [htype0]; decide)
    have ho_eq : o = resolveTracked s.trackedObjects s.currentFrame o0 := by
      rw [← heq, hcache]
    have hids : ((s.overlays.filter (isActive s.currentFrame)).map
        (fun o2 => o2.id)).Nodup := by
      have hmapeq : res.1.map (fun o2 => o2.id) =
          (s.overlays.filter (isActive s.currentFrame)).map (fun o2 => o2.id) := by
        rw [hact, List.map_map]
        apply List.map_congr_left
        intro x _
        exact overlayAfterRender_id s.trackedObjects s.currentFrame x
      rw [← hmapeq]
      exact hnodup
    have huniq : ∀ o2 ∈ s.overlays.filter (isActive s.currentFrame),
        (resolveTracked s.trackedObjects s.currentFrame o2).id = o.id → o2 = o0 := by
      intro o2 ho2 hid2
      have hinj := List.inj_on_of_nodup_map hids
      apply hinj ho2 ho0
      rw [(resolveTracked_preserves s.trackedObjects s.currentFrame o2).1] at hid2
      rw [hid2, ho_eq, (resolveTracked_preserves s.trackedObjects s.currentFrame o0).1]
    have hreg := renderActives_filter_reg ctx s.trackedObjects s.currentFrame o.id _ _ _ hr
      o0 ho0
      (by rw [ho_eq])
      htype0
      (by rw [← ho_eq]; exact hint)
      huniq
    rw [← ho_eq] at hreg
    show (res.2.1.filter (fun a => res.1.any (fun o2 => o2.id == a.id))).filter
      (fun a => a.id == o.id) = [qteArea o]
    rw [filter_swap, hreg, List.filter_cons]
    have hself : (res.1.any (fun o2 => o2.id == (qteArea o).id)) = true :=
      List.any_eq_true.mpr ⟨o, ho1, by simp [show (qteArea o).id = o.id from rfl]⟩
    rw [if_pos hself]
    rfl

/-- The QTE overlay of the spec's registry scenario: key "X", frames 10-20. -/
def c1q : Overlay :=
  { id := "q1", type := "qte", frameStart := 10, frameEnd := 20, key := some "X" }

/-- The scenario state at frame 15. -/
def c1s0 : EngineState := { currentFrame := 15, overlays := [c1q] }

/-- Witness for C1 (amended) at frame 15 with the one QTE overlay. -/
theorem c1_registry_amended_witness :
    (∀ a ∈ (stateAfterRender ctx0 c1s0).collisionAreas,
      ∃ o ∈ (stateAfterRender ctx0 c1s0).activeOverlays, o.id = a.id) ∧
    (∀ o ∈ (stateAfterRender ctx0 c1s0).activeOverlays,
      o.type = "qte" → o.interactive ≠ some false →
      (stateAfterRender ctx0 c1s0).collisionAreas.filter (fun a => a.id == o.id) =
        [qteArea o]) :=
  c1_registry_amended ctx0 c1s0 (stateAfterRender ctx0 c1s0) (cmdsAfterRender ctx0 c1s0)
    rfl (by decide)

/-- The overlay update that turns off interactivity. -/
def c1upd : Overlay → Overlay := fun o => { o with interactive := some false }

/-- Engine state after an updateOverlay call, for concrete scenarios. -/
def stateAfterUpdate (ctx : Ctx) (s : EngineState) (id : String)
    (upd : Overlay → Overlay) : EngineState :=
  match updateOverlay ctx s id upd with
  | .ok r => r.1
  | .error _ => s

/-- The state after rendering the QTE at frame 15 and then flipping its
interactive flag off (updateOverlay re-renders at the same frame). -/
def c1s2 : EngineState := stateAfterUpdate ctx0 (stateAfterRender ctx0 c1s0) "q1" c1upd

/-- Counterexample to C1 as stated: after the render triggered by turning the
active QTE's interactive flag to false, its stale collision area survives
(updateCollisionAreas only drops areas of inactive ids), so the registry does
not correspond exactly to the active overlays declaring interactive ≠ false. -/
theorem c1_registry_counterexample :
    (updateOverlay ctx0 (stateAfterRender ctx0 c1s0) "q1" c1upd).toOption.map Prod.snd =
      some true ∧
    c1s2.collisionAreas.length = 1 ∧
    (∀ o ∈ c1s2.activeOverlays, o.interactive = some false) ∧
    ¬ (∀ a ∈ c1s2.collisionAreas,
        ∃ o ∈ c1s2.activeOverlays, o.id = a.id ∧ o.interactive ≠ some false) := by
  decide

/-- C2 (amended): rendering an overlay whose trackId resolves to bounds at the
current frame PERSISTS the resolved geometry into the stored overlay record:
after the render, the stored overlay's x and y equal the resolved bounds plus
the track offset (and width/height equal the track's when trackSize is set) —
not the values stored before the call.  This holds for every overlay type,
image overlays included: their render-time handle caching rewrites only the
imageElement field. -/
theorem c2_tracked_persist_amended (ctx : Ctx) (s s1 : EngineState) (cmds : List DrawCmd)
    (o : Overlay) (tid : String) (b : Bounds)
    (h : render ctx s = .ok (s1, cmds))
    (ho : o ∈ s.overlays) (hact : isActive s.currentFrame o = true)
    (htid : o.trackId = some tid) (htid2 : tid ≠ "")
    (hb : getTrackedBounds s.trackedObjects tid s.currentFrame = some b) :
    ∃ o1 ∈ s1.overlays, o1.id = o.id ∧
      o1.x = b.x + ((o.trackOffset.map Point.x).getD 0) ∧
      o1.y = b.y + ((o.trackOffset.map Point.y).getD 0) ∧
      (o.trackSize = true → o1.width = b.width ∧ o1.height = b.height) ∧
      (o.trackSize = false → o1.width = o.width ∧ o1.height = o.height) := by
  obtain ⟨res, hr, hs1, hcmds⟩ := render_ok ctx s s1 cmds h
  subst hs1
  refine ⟨overlayAfterRender s.trackedObjects s.currentFrame o, ?_, ?_⟩
  · exact List.mem_map.mpr ⟨o, ho, by rw [if_pos hact]⟩
  · have hc := cacheImageHandle_preserves (resolveTracked s.trackedObjects s.currentFrame o)
    unfold overlayAfterRender
    rw [hc.1, hc.2.2.2.2.2.2.1, hc.2.2.2.2.2.2.2.1, hc.2.2.2.2.2.2.2.2.1,
      hc.2.2.2.2.2.2.2.2.2.1,
      (resolveTracked_preserves s.trackedObjects s.currentFrame o).1]
    unfold resolveTracked
    rw [htid]
    dsimp only
    rw [if_neg htid2, hb]
    dsimp only
    by_cases hts : o.trackSize = true
    · rw [if_pos hts]
      exact ⟨rfl, rfl, rfl, fun _ => ⟨rfl, rfl⟩, fun hc => by rw [hts] at hc; cases hc⟩
    · rw [if_neg hts]
      exact ⟨rfl, rfl, rfl, fun hc => absurd hc hts, fun _ => ⟨rfl, rfl⟩⟩

/-- First keyframe of the C2 scenario track: frame 0, x = 0. -/
def c2k0 : Keyframe := { frame := 0, bounds := { x := 0, y := 0, width := 10, height := 10 } }

/-- Second keyframe: frame 10, x = 100. -/
def c2k10 : Keyframe := { frame := 10, bounds := { x := 100, y := 0, width := 10, height := 10 } }

/-- The C2 scenario track, valid over frames 0-30. -/
def c2track : Track := { id := "t2", startFrame := 0, endFrame := 30, keyframes := [c2k0, c2k10] }

/-- A text overlay stored at x = 5, y = 5 but attached to the track. -/
def c2o : Overlay :=
  { id := "o1", type := "text", frameStart := 0, frameEnd := 30, x := 5, y := 5,
    content := some "hi", trackId := some "t2" }

/-- The C2 scenario state at frame 5. -/
def c2s : EngineState :=
  { currentFrame := 5, overlays := [c2o], trackedObjects := [c2track] }

/-- The resolved track bounds at frame 5 (midway: x = 50). -/
def c2b : Bounds :=
  (getTrackedBounds c2s.trackedObjects "t2" c2s.currentFrame).getD
    { x := 0, y := 0, width := 0, height := 0 }

/-- Counterexample to C2 as stated: the overlay is stored with x = 5, y = 5;
after rendering at frame 5 the stored record carries the resolved geometry
x = 50, y = 0 instead — the resolution is persisted, not render-local. -/
theorem c2_tracked_persist_counterexample :
    c2o.x = 5 ∧ c2o.y = 5 ∧
    (render ctx0 c2s).isOk = true ∧
    (getOverlay (stateAfterRender ctx0 c2s) "o1").map Overlay.x = some 50 ∧
    (getOverlay (stateAfterRender ctx0 c2s) "o1").map Overlay.y = some 0 := by
  refine ⟨rfl, rfl, by decide, ?_, ?_⟩ <;>
  · simp [stateAfterRender, render, renderActives, renderOverlayStep, dispatchRender,
      dispatchCmds, dispatchAreas, renderText, resolveTracked, overlayAfterRender,
      cacheImageHandle, transformCmds, getTrackedBounds, getTrack, boundsFromKeyframes,
      findBracket, lerpBounds, isActive, getOverlay, renderEffects, c2s, c2o, c2track,
      c2k0, c2k10, ctx0, optStr, sTruthy, Except.map]
    try norm_num

/-- Witness for C2 (amended) on the scenario: after the render, the stored
overlay's geometry equals the resolved track bounds. -/
theorem c2_tracked_persist_amended_witness :
    ∃ o1 ∈ (stateAfterRender ctx0 c2s).overlays, o1.id = c2o.id ∧
      o1.x = c2b.x + ((c2o.trackOffset.map Point.x).getD 0) ∧
      o1.y = c2b.y + ((c2o.trackOffset.map Point.y).getD 0) ∧
      (c2o.trackSize = true → o1.width = c2b.width ∧ o1.height = c2b.height) ∧
      (c2o.trackSize = false → o1.width = c2o.width ∧ o1.height = c2o.height) :=
  c2_tracked_persist_amended ctx0 c2s (stateAfterRender ctx0 c2s)
    (cmdsAfterRender ctx0 c2s) c2o "t2" c2b rfl (by decide) (by decide) rfl
    (by decide) rfl

/-- Recognizer for arrow-head drawing commands. -/
def isArrowHeadCmd : DrawCmd → Bool
  | DrawCmd.arrowHead _ => true
  | _ => false

/-- A plain "line" overlay: no style at all (so style.arrowHead is unset and
animation is on its default). -/
def c3line : Overlay :=
  { id := "l1", type := "line", frameStart := 0, frameEnd := 50,
    startPoint := some { x := 0, y := 0 }, endPoint := some { x := 100, y := 0 },
    style := { animated := some false } }

/-- C3 (code bug): the source computes
`showArrowHead = overlay.type === 'arrow' || style.arrowHead !== false`, so a
"line" overlay with no arrowHead setting DOES draw an arrow head (here at
full draw progress), contradicting the claim — and the repository's own
overlay documentation ("line - Lines without arrowheads.  Same as arrow but
no arrowhead"). -/
theorem c3_line_arrowhead_bug :
    c3line.type = "line" ∧ c3line.style.arrowHead = none ∧
    (renderArrow c3line 30).any isArrowHeadCmd = true := by
  refine ⟨rfl, rfl, ?_⟩
  simp [renderArrow, drawLinePath, isArrowHeadCmd, sTruthy, c3line]
  norm_num

/-- An ascii overlay with no content — the malformed overlay of the C8
scenario. -/
def c8bad : Overlay := { id := "b", type := "ascii", frameStart := 0, frameEnd := 10 }

/-- A well-formed text overlay active over the same frames. -/
def c8good : Overlay :=
  { id := "g", type := "text", frameStart := 0, frameEnd := 10, content := some "ok" }

/-- Frame-5 state with the malformed ascii overlay followed by the good one. -/
def c8s : EngineState := { currentFrame := 5, overlays := [c8bad, c8good] }

/-- Counterexample to C8 as stated: rendering a frame containing an ascii
overlay with missing content THROWS (renderAscii's `overlay.content.split` on
undefined) — the render is not a logged no-op, and since the loop has no
try/catch the active well-formed overlay after it is not rendered either. -/
theorem c8_malformed_counterexample :
    render ctx0 c8s =
      .error (JsError.typeError "cannot read properties of undefined, reading split") ∧
    c8good.frameStart ≤ c8s.currentFrame ∧ c8s.currentFrame ≤ c8good.frameEnd :=
  ⟨rfl, by decide, by decide⟩

/-- An outline overlay with an empty point list — malformed geometry that the
source explicitly guards (renderOutline returns early below 2 points). -/
def c8out : Overlay :=
  { id := "b2", type := "outline", frameStart := 0, frameEnd := 10, points := some [] }

/-- Frame-5 state with the guarded outline overlay followed by the good one. -/
def c8outS : EngineState := { currentFrame := 5, overlays := [c8out, c8good] }

/-- C8 (amended): failure handling is split.  Geometry-deficient overlays the
source guards (outline with fewer than 2 points) are silent no-ops and do not
prevent other overlays from rendering; but a text-bearing overlay missing its
content (ascii) throws a TypeError that aborts the whole frame — per-overlay
isolation does not hold. -/
theorem c8_malformed_amended :
    render ctx0 c8s =
      .error (JsError.typeError "cannot read properties of undefined, reading split") ∧
    (render ctx0 c8outS).isOk = true ∧
    cmdsAfterRender ctx0 c8outS = [DrawCmd.fillText "ok" 0 0] :=
  ⟨rfl, rfl, rfl⟩

/-- Tracked-bounds resolution is the identity on untracked overlays. -/
theorem resolveTracked_none (tracks : List Track) (f : ℤ) (o : Overlay)
    (h : o.trackId = none) : resolveTracked tracks f o = o := by
  unfold resolveTracked
  rw [h]

/-- Export stripping cancels the render pass's image-handle caching. -/
theorem stripRuntime_cache (o : Overlay) :
    stripRuntime (cacheImageHandle o) = stripRuntime o := by
  unfold cacheImageHandle
  split
  · rfl
  · rfl

/-- Folding Map.set over tracks with fresh, duplicate-free ids appends them
in order. -/
theorem foldl_mapSet_append : ∀ (l acc : List Track),
    (l.map Track.id).Nodup → (∀ t ∈ l, ∀ u ∈ acc, u.id ≠ t.id) →
    l.foldl mapSet acc = acc ++ l
  | [], acc => by
    intro _ _
    simp
  | t :: rest, acc => by
    intro hnd hdisj
    rw [List.foldl_cons]
    have hms : mapSet acc t = acc ++ [t] := by
      unfold mapSet
      rw [if_neg]
      intro hc
      obtain ⟨u, hu, hbeq⟩ := List.any_eq_true.mp hc
      exact hdisj t (List.mem_cons_self t rest) u hu (by simpa using hbeq)
    have hnd1 : (t.id :: rest.map Track.id).Nodup := by simpa using hnd
    have hnd2 : (rest.map Track.id).Nodup := (List.nodup_cons.mp hnd1).2
    have hdisj2 : ∀ t2 ∈ rest, ∀ u ∈ acc ++ [t], u.id ≠ t2.id := by
      intro t2 ht2 u hu
      rcases List.mem_append.mp hu with hu | hu
      · exact hdisj t2 (List.mem_cons_of_mem t ht2) u hu
      · have hut : u = t := by simpa using hu
        subst hut
        intro hc
        exact (List.nodup_cons.mp hnd1).1 (List.mem_map.mpr ⟨t2, ht2, hc.symm⟩)
    rw [hms, foldl_mapSet_append rest (acc ++ [t]) hnd2 hdisj2, List.append_assoc]
    rfl

/-- A successful Except.map comes from a successful computation. -/
theorem except_map_ok {ε α β : Type} (f : α → β) (x : Except ε α) (b : β)
    (h : Except.map f x = Except.ok b) : ∃ a, x = Except.ok a ∧ b = f a := by
  cases x with
  | error e => simp [Except.map] at h
  | ok a =>
    simp only [Except.map] at h
    rw [Except.ok.injEq] at h
    exact ⟨a, rfl, h.symm⟩

/-- C9 (amended): importing then exporting preserves fps (when the project
sets a nonzero fps), the overlays modulo the stripped imageElement field (for
overlays not bound to tracks — a bound overlay's stored geometry is rewritten
by the load-time render, see C2) and the tracked objects (with duplicate-free
ids); but the exported version is always "1.0" and videoWidth, videoHeight
and totalFrames come from the engine's loaded video, NOT from the imported
project — loadProject never restores them. -/
theorem c9_roundtrip_amended (ctx : Ctx) (s : EngineState) (s1 : EngineState) (p : Project)
    (h : loadProject ctx s p = .ok s1)
    (hfps : p.fps ≠ 0)
    (htrk : ∀ o ∈ p.overlays, o.trackId = none)
    (hids : (p.trackedObjects.map Track.id).Nodup) :
    (exportProject s1).fps = p.fps ∧
    (exportProject s1).overlays = p.overlays.map stripRuntime ∧
    (exportProject s1).trackedObjects = p.trackedObjects ∧
    (exportProject s1).version = "1.0" ∧
    (exportProject s1).videoWidth = s.videoWidth ∧
    (exportProject s1).videoHeight = s.videoHeight ∧
    (exportProject s1).totalFrames = s.totalFrames := by
  unfold loadProject at h
  dsimp only at h
  rw [if_pos hfps] at h
  obtain ⟨r, hrend, hs1⟩ := except_map_ok _ _ _ h
  subst hs1
  obtain ⟨res, hr2, hs1eq, _⟩ :=
    render_ok ctx _ r.1 r.2 (by rw [hrend])
  rw [hs1eq]
  have hfold : p.trackedObjects.foldl mapSet [] = p.trackedObjects := by
    have hf := foldl_mapSet_append p.trackedObjects [] hids
      (by intro t _ u hu; exact absurd hu (List.not_mem_nil u))
    simpa using hf
  refine ⟨rfl, ?_, ?_, rfl, rfl, rfl, rfl⟩
  · show (p.overlays.map _).map stripRuntime = p.overlays.map stripRuntime
    rw [List.map_map]
    apply List.map_congr_left
    intro o hoin
    show stripRuntime (if isActive _ o then overlayAfterRender _ _ o else o) =
      stripRuntime o
    by_cases hact : isActive s.currentFrame o
    · rw [if_pos hact]
      unfold overlayAfterRender
      rw [resolveTracked_none _ _ o (htrk o hoin), stripRuntime_cache]
    · rw [if_neg hact]
  · exact hfold

/-- The C9 scenario project: fps 30, 640x360, 100 frames, no overlays. -/
def p9 : Project :=
  { fps := 30, videoWidth := 640, videoHeight := 360, totalFrames := 100 }

/-- Engine state after importing that project into a fresh engine. -/
def c9s1 : EngineState :=
  match loadProject ctx0 {} p9 with
  | .ok r => r
  | .error _ => {}

/-- Counterexample to C9 as stated: importing a project with videoWidth 640,
videoHeight 360 and totalFrames 100 into a fresh engine and exporting yields
videoWidth/videoHeight/totalFrames 0 — the project's video metadata is not
restored, so export(import(p)) ≠ p even though no runtime-only field is
involved. -/
theorem c9_roundtrip_counterexample :
    (loadProject ctx0 {} p9).isOk = true ∧
    p9.videoWidth = 640 ∧ p9.totalFrames = 100 ∧
    (exportProject c9s1).videoWidth = 0 ∧
    (exportProject c9s1).videoHeight = 0 ∧
    (exportProject c9s1).totalFrames = 0 ∧
    exportProject c9s1 ≠ p9 := by
  decide

/-- Witness for C9 (amended) on the scenario project. -/
theorem c9_roundtrip_amended_witness :
    (exportProject c9s1).fps = p9.fps ∧
    (exportProject c9s1).overlays = p9.overlays.map stripRuntime ∧
    (exportProject c9s1).trackedObjects = p9.trackedObjects ∧
    (exportProject c9s1).version = "1.0" ∧
    (exportProject c9s1).videoWidth = (({} : EngineState)).videoWidth ∧
    (exportProject c9s1).videoHeight = (({} : EngineState)).videoHeight ∧
    (exportProject c9s1).totalFrames = (({} : EngineState)).totalFrames :=
  c9_roundtrip_amended ctx0 {} c9s1 p9 rfl (by decide) (by decide) (by decide)

end GIVE
